import Mathlib

/-!
Shallow embedding of src/src/transcoder/transcodedialog.cpp (Clementine
TranscodeDialog). The dialog is modelled as a state record plus a step
function over the events that reach it (button clicks, engine callbacks,
timer ticks). Filesystem queries (QFileInfo::isDir, the directory scan in
Import) and the progress snapshot returned by Transcoder::GetProgress are
oracles passed as parameters, since the engine and the filesystem are
external to this file. Qt string functions used by the code
(QFileInfo::path, completeBaseName, QString::section) are modelled from
documented Qt semantics over plain strings.
-/

namespace Transcode

/-- TranscoderPreset from transcoder.h: display name, file extension and
codec MIME identifier. -/
structure TranscoderPreset where
  name_ : String
  extension_ : String
  codec_mimetype_ : String
deriving DecidableEq, Repr

/-- Default-constructed preset, the value a QVariant yields when the
combo index is invalid. -/
def defaultPreset : TranscoderPreset := { name_ := "", extension_ := "", codec_mimetype_ := "" }

/-- kSettingsGroup = "Transcoder" (transcodedialog.cpp line 42). -/
def kSettingsGroup : String := "Transcoder"

/-- kProgressInterval = 500 (transcodedialog.cpp line 43). -/
def kProgressInterval : Int := 500

/-- kMaxDestinationItems = 10 (transcodedialog.cpp line 44). -/
def kMaxDestinationItems : Nat := 10

/-- Splits a character list at the LAST occurrence of c, returning the
parts before and after it, or none when c does not occur. -/
def splitAtLastChar (c : Char) : List Char → Option (List Char × List Char)
  | [] => none
  | x :: rest =>
    match splitAtLastChar c rest with
    | some (pre, post) => some (x :: pre, post)
    | none => if x = c then some ([], rest) else none

/-- QFileInfo::path over a plain string: everything before the last slash,
"/" when the last slash is the first character, "." when there is no
slash. -/
def qtPath (s : String) : String :=
  match splitAtLastChar '/' s.toList with
  | none => "."
  | some (pre, _) => if pre = [] then "/" else String.mk pre

/-- QFileInfo::fileName over a plain string: everything after the last
slash, or the whole string when there is no slash. -/
def qtFileName (s : String) : String :=
  match splitAtLastChar '/' s.toList with
  | none => s
  | some (_, post) => String.mk post

/-- QFileInfo::completeBaseName: the file name up to but not including
the last dot, or the whole file name when it has no dot. -/
def completeBaseName (s : String) : String :=
  let fn := (qtFileName s).toList
  match splitAtLastChar '.' fn with
  | none => String.mk fn
  | some (pre, _) => String.mk pre

/-- The destination combo box: the item-data list (none for the static
first item, whose data is a null QVariant; some dir for folder items
added by AddDestination) and the current index. -/
structure DestBox where
  items : List (Option String)
  current : Nat
deriving DecidableEq, Repr

/-- The while loop of AddDestination: removeItem(1) while
count >= kMaxDestinationItems. Each iteration shortens the list by one
(the guard implies at least two items), so a fuel equal to the initial
length always suffices; the fuel only makes the recursion structural. -/
def evictFuel : Nat → List (Option String) → List (Option String)
  | 0, items => items
  | fuel + 1, items =>
    if kMaxDestinationItems ≤ items.length then evictFuel fuel (items.eraseIdx 1)
    else items

/-- Runs the eviction loop of AddDestination to completion. -/
def evictOldest (items : List (Option String)) : List (Option String) :=
  evictFuel items.length items

/-- QComboBox::findData: index of the first item whose data equals x. -/
def findData (x : Option String) : List (Option String) → Option Nat
  | [] => none
  | y :: rest => if y = x then some 0 else (findData x rest).map (· + 1)

/-- TranscodeDialog::AddDestination (lines 322-347), given the directory
string returned by the file dialog (empty when the user cancelled): when
the string is non-empty, first evict oldest folder items down to the cap,
then either select the existing item holding the same folder or append a
new item and select it. -/
def addDestination (dir : String) (b : DestBox) : DestBox :=
  if dir = "" then b
  else
    match findData (some dir) (evictOldest b.items) with
    | some i => { items := evictOldest b.items, current := i }
    | none =>
        { items := evictOldest b.items ++ [some dir]
          current := (evictOldest b.items).length }

/-- The destination-box invariant claimed by the spec: at most
kMaxDestinationItems entries, and no two entries with the same data. -/
def destInv (b : DestBox) : Prop :=
  b.items.length ≤ kMaxDestinationItems ∧ b.items.Nodup

instance (b : DestBox) : Decidable (destInv b) :=
  inferInstanceAs (Decidable (_ ∧ _))

/-- The three C++ int counters of the dialog (members queued_,
finished_success_, finished_failed_); values stay far below the int
range in every claim, so plain integers model them. -/
structure Counters where
  queued_ : Int
  finished_success_ : Int
  finished_failed_ : Int
deriving DecidableEq, Repr

/-- Counter reset performed by Start (lines 174-176). -/
def startCounters (n : Int) : Counters :=
  { queued_ := n, finished_success_ := 0, finished_failed_ := 0 }

/-- Counter update performed by JobComplete (lines 199-205): bump the
matching finished counter and decrement queued_. -/
def jobCompleteCounters (success : Bool) (c : Counters) : Counters :=
  { queued_ := c.queued_ - 1
    finished_success_ := if success then c.finished_success_ + 1 else c.finished_success_
    finished_failed_ := if success then c.finished_failed_ else c.finished_failed_ + 1 }

/-- Replaces every "%n" in the character list with num: the effect of
Qt tr("%n ...", "", n) when no translator is installed. -/
def trnAux : List Char → String → String
  | [], _ => ""
  | '%' :: 'n' :: rest, num => num ++ trnAux rest num
  | ch :: rest, num => String.singleton ch ++ trnAux rest num

/-- tr(src, "", n) with %n substitution, as rendered untranslated. -/
def trn (src : String) (n : Int) : String :=
  trnAux src.toList (toString n)

/-- TranscodeDialog::UpdateStatusText (lines 222-241): one colored
section per non-zero counter, joined with ", " (C++ if(x) tests the int
against zero). -/
def renderStatusText (c : Counters) : String :=
  let sections :=
    (if c.queued_ ≠ 0 then
      ["<font color=\"#3467c8\">" ++ trn "%n remaining" c.queued_ ++ "</font>"]
     else []) ++
    (if c.finished_success_ ≠ 0 then
      ["<font color=\"#02b600\">" ++ trn "%n finished" c.finished_success_ ++ "</font>"]
     else []) ++
    (if c.finished_failed_ ≠ 0 then
      ["<font color=\"#b60000\">" ++ trn "%n failed" c.finished_failed_ ++ "</font>"]
     else [])
  String.intercalate ", " sections

/-- qBound(lo, x, hi) = qMax(lo, qMin(hi, x)). -/
def qBound (lo x hi : Int) : Int := max lo (min hi x)

/-- The C++ cast int(q) for the fractional progress value: truncation
toward zero, which on a rational is Int division of numerator by
denominator. Engine-reported floats are a subset of the rationals. -/
def cppIntOfRat (q : ℚ) : Int := q.num / (q.den : Int)

/-- TranscodeDialog::UpdateProgress (lines 211-220): 100 per finished
job plus qBound(0, int(value * 100), 99) for every in-flight job in the
snapshot returned by Transcoder::GetProgress. -/
def updateProgress (c : Counters) (jobs : List ℚ) : Int :=
  (c.finished_success_ + c.finished_failed_) * 100 +
    (jobs.map (fun v => qBound 0 (cppIntOfRat (v * 100)) 99)).sum

/-- One job handed to the engine by Transcoder::AddJob. -/
structure Job where
  input : String
  preset : TranscoderPreset
  output : String
deriving DecidableEq, Repr

/-- Calls the dialog makes into the engine, in order. -/
inductive EngineCmd where
  | addJob (j : Job)
  | startCmd
  | cancelCmd
deriving DecidableEq, Repr

/-- Writes a key under the settings group; QSettings::setValue
overwrites, modelled by prepending so that lookup finds the most recent
write first. -/
def setSetting (m : List (String × String)) (k v : String) : List (String × String) :=
  (k, v) :: m

/-- The dialog state: the file list (Qt::UserRole data of each row), the
format combo (item data and current index), the destination combo, the
counters, the progress bar, the status label, the working flag and
progress timer, the settings group, the trace of engine calls, the log
view and the two cached directories. -/
structure DialogState where
  files : List String
  formatItems : List TranscoderPreset
  formatCurrent : Nat
  destination : DestBox
  counters : Counters
  progressValue : Int
  progressMax : Int
  statusText : String
  working : Bool
  timerOn : Bool
  timerInterval : Int
  settings : List (String × String)
  engineTrace : List EngineCmd
  log : List String
  last_add_dir_ : String
  last_import_dir_ : String
deriving DecidableEq, Repr

/-- itemData(currentIndex).value<TranscoderPreset>(): the stored preset,
or a default-constructed one when the index is invalid. -/
def currentPreset (s : DialogState) : TranscoderPreset :=
  s.formatItems.getD s.formatCurrent defaultPreset

/-- TranscodeDialog::GetOutputFileName (lines 349-361): the selected
destination folder when it is an existing directory (a null item data
reads back as the empty string), otherwise the path of the input file;
joined with the complete base name and the preset extension. -/
def getOutputFileName (isDir : String → Bool) (box : DestBox)
    (input : String) (preset : TranscoderPreset) : String :=
  let pathStr := (box.items.getD box.current none).getD ""
  let output_path := if isDir pathStr then pathStr else qtPath input
  output_path ++ "/" ++ completeBaseName input ++ "." ++ preset.extension_

/-- TranscodeDialog::SetWorking (lines 132-144): flip the working flag
and start the progress timer at kProgressInterval, or stop it. -/
def setWorking (working : Bool) (s : DialogState) : DialogState :=
  { s with working := working
           timerOn := working
           timerInterval := if working then kProgressInterval else s.timerInterval }

/-- TranscodeDialog::Start (lines 146-186): bail out on an empty list;
otherwise enter the working state, hand one AddJob per listed file to
the engine with the selected preset and the GetOutputFileName output,
reset the progress bar to 0 with maximum count * 100, reset the
counters and status text, call the engine Start once, and persist
last_output_format. -/
def startAction (isDir : String → Bool) (s : DialogState) : DialogState :=
  if s.files.length = 0 then s
  else
    let preset := currentPreset s
    let jobs := s.files.map fun f =>
      EngineCmd.addJob
        { input := f, preset := preset
          output := getOutputFileName isDir s.destination f preset }
    let n : Int := s.files.length
    { setWorking true s with
        engineTrace := s.engineTrace ++ jobs ++ [EngineCmd.startCmd]
        progressValue := 0
        progressMax := n * 100
        counters := startCounters n
        statusText := renderStatusText (startCounters n)
        settings := setSetting s.settings "last_output_format" preset.codec_mimetype_ }

/-- TranscodeDialog::Cancel (lines 188-191): forward Cancel to the
engine and leave the working state. -/
def cancelAction (s : DialogState) : DialogState :=
  setWorking false { s with engineTrace := s.engineTrace ++ [EngineCmd.cancelCmd] }

/-- TranscodeDialog::JobComplete (lines 199-209): update the counters,
refresh the status text and recompute the progress bar from the engine
progress snapshot. -/
def jobCompleteAction (success : Bool) (snap : List ℚ) (s : DialogState) : DialogState :=
  let c := jobCompleteCounters success s.counters
  { s with counters := c
           statusText := renderStatusText c
           progressValue := updateProgress c snap }

/-- TranscodeDialog::Add (lines 245-260), given the file names returned
by the dialog: if the user cancelled do nothing, otherwise append the
files (SetFilenames), cache filenames[0] as the last add directory and
persist it. -/
def addAction (fns : List String) (s : DialogState) : DialogState :=
  if fns = [] then s
  else
    { s with files := s.files ++ fns
             last_add_dir_ := fns.headD ""
             settings := setSetting s.settings "last_add_dir" (fns.headD "") }

/-- TranscodeDialog::Import (lines 262-285), given the chosen directory
and the audio files the recursive directory scan found (a filesystem
oracle): if the user cancelled do nothing, otherwise append the found
files, cache the directory and persist it. -/
def importAction (path : String) (found : List String) (s : DialogState) : DialogState :=
  if path = "" then s
  else
    { s with files := s.files ++ found
             last_import_dir_ := path
             settings := setSetting s.settings "last_import_dir" path }

/-- Events reaching the dialog: user clicks (carrying the values the
modal file dialogs returned) and the engine or timer callbacks
(carrying the engine progress snapshot read by GetProgress). -/
inductive Event where
  | startClicked
  | addFiles (fns : List String)
  | folderImport (path : String) (found : List String)
  | addDest (dir : String)
  | cancelClicked
  | jobComplete (success : Bool) (snap : List ℚ)
  | timerTick (snap : List ℚ)
  | allJobsComplete
  | logLine (date msg : String)

/-- One dialog transition. SetWorking hides the start button and
disables the input and output groups, so the user events startClicked,
addFiles, folderImport and addDest can only fire while not working, and
cancelClicked only while working; engine callbacks are not gated, and
timerEvent only reacts while the progress timer runs. -/
def step (isDir : String → Bool) (e : Event) (s : DialogState) : DialogState :=
  match e with
  | .startClicked => if s.working then s else startAction isDir s
  | .addFiles fns => if s.working then s else addAction fns s
  | .folderImport path found => if s.working then s else importAction path found s
  | .addDest dir => if s.working then s else { s with destination := addDestination dir s.destination }
  | .cancelClicked => if s.working then cancelAction s else s
  | .jobComplete success snap => jobCompleteAction success snap s
  | .timerTick snap =>
      if s.timerOn then { s with progressValue := updateProgress s.counters snap } else s
  | .allJobsComplete => setWorking false s
  | .logLine date msg => { s with log := s.log ++ [date ++ ": " ++ msg] }

/-- Preset order used by the constructor: std::sort with
ComparePresetsByName (lines 46-49), a comparison on name_. -/
def presetLE (a b : TranscoderPreset) : Prop := a.name_ ≤ b.name_

instance : DecidableRel presetLE := fun a b =>
  inferInstanceAs (Decidable (a.name_ ≤ b.name_))

instance : IsTotal TranscoderPreset presetLE := ⟨fun a b => le_total a.name_ b.name_⟩

instance : IsTrans TranscoderPreset presetLE := ⟨fun _ _ _ h1 h2 => le_trans h1 h2⟩

/-- The selection loop of the constructor (lines 93-99): index of the
first combo item whose preset has the given codec MIME type. -/
def selectIndex (fmt : String) : List TranscoderPreset → Option Nat
  | [] => none
  | p :: rest =>
    if p.codec_mimetype_ = fmt then some 0 else (selectIndex fmt rest).map (· + 1)

/-- The TranscodeDialog constructor (lines 51-128), restricted to the
state this model tracks: presets sorted by name populate the format
combo (the current index stays 0, the first item, unless the loop finds
a codec match for the persisted last_output_format, defaulting to
audio/x-vorbis); the cached directories load from settings with the
home directory as default; the destination combo holds its single
static item with null data; counters start at zero and the dialog is
not working. std::sort is an unspecified sort, modelled by insertion
sort (any name-sorted permutation). -/
def initDialog (home : String) (presets : List TranscoderPreset)
    (stored : List (String × String)) : DialogState :=
  let sorted := List.insertionSort presetLE presets
  let lastFmt := (List.lookup "last_output_format" stored).getD "audio/x-vorbis"
  { files := []
    formatItems := sorted
    formatCurrent := (selectIndex lastFmt sorted).getD 0
    destination := { items := [none], current := 0 }
    counters := { queued_ := 0, finished_success_ := 0, finished_failed_ := 0 }
    progressValue := 0
    progressMax := 100
    statusText := ""
    working := false
    timerOn := false
    timerInterval := 0
    settings := stored
    engineTrace := []
    log := []
    last_add_dir_ := (List.lookup "last_add_dir" stored).getD home
    last_import_dir_ := (List.lookup "last_import_dir" stored).getD home }

/-- Fixed filesystem oracle on which no path is a directory. -/
def oracleNone : String → Bool := fun _ => false

/-- Filesystem oracle on which exactly /music is a directory. -/
def oracleMusic : String → Bool := fun s => s == "/music"

/-- The Ogg Vorbis preset, used as a concrete sample input. -/
def presetVorbis : TranscoderPreset :=
  { name_ := "Ogg Vorbis", extension_ := "ogg", codec_mimetype_ := "audio/x-vorbis" }

/-- A freshly constructed dialog with one preset and one queued file. -/
def sampleState : DialogState :=
  { initDialog "" [presetVorbis] [] with files := ["x.mp3"] }

section EvictionLemmas

/-- The eviction loop leaves at most kMaxDestinationItems - 1 items
whenever the fuel covers the initial excess. -/
lemma evictFuel_length_le (fuel : Nat) (items : List (Option String))
    (h : items.length ≤ 9 + fuel) : (evictFuel fuel items).length ≤ 9 := by
  induction fuel generalizing items with
  | zero => simpa [evictFuel] using h
  | succ fuel ih =>
    simp only [evictFuel]
    split
    · rename_i hlen
      simp only [kMaxDestinationItems] at hlen
      apply ih
      rw [List.length_eraseIdx]
      split <;> omega
    · rename_i hlen
      simp only [kMaxDestinationItems] at hlen
      omega

/-- Running the eviction loop with fuel equal to the length always ends
below the cap. -/
lemma evictOldest_length_le (items : List (Option String)) :
    (evictOldest items).length ≤ 9 :=
  evictFuel_length_le items.length items (by omega)

lemma evictFuel_sublist (fuel : Nat) (items : List (Option String)) :
    (evictFuel fuel items).Sublist items := by
  induction fuel generalizing items with
  | zero => simp [evictFuel]
  | succ fuel ih =>
    simp only [evictFuel]
    split
    · exact (ih _).trans (List.eraseIdx_sublist items 1)
    · exact List.Sublist.refl items

lemma evictOldest_sublist (items : List (Option String)) :
    (evictOldest items).Sublist items :=
  evictFuel_sublist items.length items

lemma evictOldest_nodup {items : List (Option String)} (h : items.Nodup) :
    (evictOldest items).Nodup :=
  List.Nodup.sublist (evictOldest_sublist items) h

end EvictionLemmas

section FindDataLemmas

lemma findData_eq_none_iff_not_mem {x : Option String} {l : List (Option String)} :
    findData x l = none ↔ x ∉ l := by
  induction l with
  | nil => simp [findData]
  | cons y rest ih =>
    simp only [findData]
    by_cases hy : y = x
    · simp [hy]
    · rw [if_neg hy]
      simp only [Option.map_eq_none', ih, List.mem_cons, not_or]
      constructor
      · intro h
        exact ⟨fun he => hy he.symm, h⟩
      · intro h
        exact h.2

lemma findData_eq_some {x : Option String} {l : List (Option String)} {i : Nat}
    (h : findData x l = some i) : i < l.length ∧ l.getD i none = x := by
  induction l generalizing i with
  | nil => simp [findData] at h
  | cons y rest ih =>
    simp only [findData] at h
    split at h
    · rename_i heq
      simp only [Option.some.injEq] at h
      subst h
      exact ⟨by simp, by simpa using heq⟩
    · rcases Option.map_eq_some'.mp h with ⟨j, hj, hji⟩
      subst hji
      obtain ⟨hlt, hget⟩ := ih hj
      exact ⟨by simpa using Nat.succ_lt_succ hlt, by simpa using hget⟩

lemma findData_is_some {x : Option String} {l : List (Option String)} (h : x ∈ l) :
    ∃ i, findData x l = some i := by
  induction l with
  | nil => simp at h
  | cons y rest ih =>
    simp only [findData]
    by_cases hy : y = x
    · exact ⟨0, by simp [hy]⟩
    · rcases List.mem_cons.mp h with h1 | h2
      · exact absurd h1.symm hy
      · obtain ⟨i, hi⟩ := ih h2
        exact ⟨i + 1, by simp [if_neg hy, hi]⟩

end FindDataLemmas

/-- One AddDestination action preserves the cap and the absence of
duplicate item data. -/
lemma addDestination_inv (dir : String) (b : DestBox) (h : destInv b) :
    destInv (addDestination dir b) := by
  obtain ⟨hlen, hnd⟩ := h
  have hnd2 := evictOldest_nodup hnd
  have hlen2 := evictOldest_length_le b.items
  unfold addDestination
  split
  · exact ⟨hlen, hnd⟩
  · split
    · rename_i i hfd
      refine ⟨?_, hnd2⟩
      simp only [kMaxDestinationItems]
      omega
    · rename_i hfd
      refine ⟨?_, ?_⟩
      · simp only [List.length_append, List.length_singleton, kMaxDestinationItems]
        omega
      · rw [List.nodup_append]
        refine ⟨hnd2, List.nodup_singleton _, ?_⟩
        intro a ha hb
        simp only [List.mem_singleton] at hb
        subst hb
        exact findData_eq_none_iff_not_mem.mp hfd ha

section SelectIndexLemmas

lemma selectIndex_eq_none {fmt : String} {l : List TranscoderPreset}
    (h : selectIndex fmt l = none) : ∀ p ∈ l, p.codec_mimetype_ ≠ fmt := by
  induction l with
  | nil => simp
  | cons p rest ih =>
    simp only [selectIndex] at h
    split at h
    · simp at h
    · rename_i hp
      simp only [Option.map_eq_none'] at h
      intro q hq
      rcases List.mem_cons.mp hq with h1 | h2
      · subst h1; exact hp
      · exact ih h q h2

lemma selectIndex_eq_some {fmt : String} {l : List TranscoderPreset} {i : Nat}
    (h : selectIndex fmt l = some i) :
    (l.getD i defaultPreset).codec_mimetype_ = fmt ∧
      ∀ j < i, (l.getD j defaultPreset).codec_mimetype_ ≠ fmt := by
  induction l generalizing i with
  | nil => simp [selectIndex] at h
  | cons p rest ih =>
    simp only [selectIndex] at h
    split at h
    · rename_i hp
      simp only [Option.some.injEq] at h
      subst h
      exact ⟨by simpa using hp, by omega⟩
    · rename_i hp
      rcases Option.map_eq_some'.mp h with ⟨j, hj, hji⟩
      subst hji
      obtain ⟨hget, hbefore⟩ := ih hj
      refine ⟨by simpa using hget, ?_⟩
      intro k hk
      cases k with
      | zero => simpa using hp
      | succ k =>
        simpa using hbefore k (by omega)

end SelectIndexLemmas

/-- Folding JobComplete counter updates: queued_ drops by the number of
events while the finished counters only grow, by exactly that number in
total. -/
lemma foldJob_spec (events : List Bool) : ∀ c : Counters,
    (events.foldl (fun a b => jobCompleteCounters b a) c).queued_ =
        c.queued_ - events.length ∧
      c.finished_success_ ≤
        (events.foldl (fun a b => jobCompleteCounters b a) c).finished_success_ ∧
      c.finished_failed_ ≤
        (events.foldl (fun a b => jobCompleteCounters b a) c).finished_failed_ ∧
      (events.foldl (fun a b => jobCompleteCounters b a) c).finished_success_ +
          (events.foldl (fun a b => jobCompleteCounters b a) c).finished_failed_ =
        c.finished_success_ + c.finished_failed_ + events.length := by
  induction events with
  | nil => intro c; simp
  | cons e es ih =>
    intro c
    obtain ⟨h1, h2, h3, h4⟩ := ih (jobCompleteCounters e c)
    simp only [List.foldl_cons, List.length_cons]
    cases e <;>
      simp only [jobCompleteCounters, if_pos, if_neg, Bool.false_eq_true,
        ite_true, ite_false] at h1 h2 h3 h4 ⊢ <;>
      push_cast at h1 h4 ⊢ <;>
      refine ⟨by omega, by omega, by omega, by omega⟩

section ClampLemmas

lemma qBound_nonneg (x : Int) : 0 ≤ qBound 0 x 99 := le_max_left 0 _

lemma qBound_le (x : Int) : qBound 0 x 99 ≤ 99 :=
  max_le (by norm_num) (min_le_left _ _)

/-- The per-job clamped contributions sum to something between 0 and 99
per in-flight job. -/
lemma clampSum_bounds (jobs : List ℚ) :
    0 ≤ (jobs.map (fun v => qBound 0 (cppIntOfRat (v * 100)) 99)).sum ∧
      (jobs.map (fun v => qBound 0 (cppIntOfRat (v * 100)) 99)).sum ≤
        99 * jobs.length := by
  constructor
  · apply List.sum_nonneg
    intro x hx
    obtain ⟨v, _, rfl⟩ := List.mem_map.mp hx
    exact qBound_nonneg _
  · have h := List.sum_le_card_nsmul
      (jobs.map (fun v => qBound 0 (cppIntOfRat (v * 100)) 99)) 99 ?_
    · simpa [List.length_map, nsmul_eq_mul, mul_comm] using h
    · intro x hx
      obtain ⟨v, _, rfl⟩ := List.mem_map.mp hx
      exact qBound_le _

end ClampLemmas

/-- Claim C1 as stated, formalised: from any box satisfying the
invariant, choosing an already-present folder leaves the box contents
unchanged and selects the existing entry. -/
def destSelectsExisting : Prop :=
  ∀ (b : DestBox) (dir : String), destInv b → dir ≠ "" → (some dir) ∈ b.items →
    (addDestination dir b).items = b.items ∧
      (addDestination dir b).items.getD (addDestination dir b).current none = some dir

/-- C1 counterexample: with the box at its cap of 10 items and the
chosen folder d1 sitting at index 1 (the oldest folder item), the
eviction that runs before the duplicate check removes the existing d1
entry, so the box contents change: d1 is re-added as the newest entry
instead of the existing entry being selected. -/
theorem C1_counterexample : ¬ destSelectsExisting := by
  intro h
  have h2 := h
    { items := [none, some "d1", some "d2", some "d3", some "d4", some "d5",
        some "d6", some "d7", some "d8", some "d9"], current := 0 }
    "d1" (by decide) (by decide) (by decide)
  exact absurd h2.1 (by decide)

/-- C1 (amended): over any sequence of AddDestination actions the box
keeps at most 10 entries and never duplicate folder data; the eviction
down to 9 entries runs first, and the duplicate check applies to the
evicted box: a folder still present after eviction gets its existing
entry selected with nothing added, while a folder absent after eviction
(including one the eviction itself just removed) is appended as the
newest entry. -/
theorem C1_destination_box :
    (∀ (b : DestBox) (dirs : List String), destInv b →
        destInv (dirs.foldl (fun st d => addDestination d st) b)) ∧
      (∀ (b : DestBox) (dir : String), dir ≠ "" →
        (some dir) ∈ evictOldest b.items →
        (addDestination dir b).items = evictOldest b.items ∧
          (addDestination dir b).items.getD (addDestination dir b).current none =
            some dir) ∧
      (∀ (b : DestBox) (dir : String), dir ≠ "" →
        (some dir) ∉ evictOldest b.items →
        (addDestination dir b).items = evictOldest b.items ++ [some dir]) := by
  refine ⟨?_, ?_, ?_⟩
  · intro b dirs
    induction dirs generalizing b with
    | nil => intro h; exact h
    | cons d ds ih =>
      intro h
      exact ih (addDestination d b) (addDestination_inv d b h)
  · intro b dir hne hmem
    obtain ⟨i, hi⟩ := findData_is_some hmem
    unfold addDestination
    rw [if_neg hne, hi]
    exact ⟨rfl, (findData_eq_some hi).2⟩
  · intro b dir hne hnm
    unfold addDestination
    rw [if_neg hne, findData_eq_none_iff_not_mem.mpr hnm]

/-- C1 witness: the invariant holds at the initial box and is carried
through a concrete action sequence. -/
theorem C1_destination_box_witness :
    destInv { items := [none], current := 0 } ∧
      destInv ((["a", "b", "a"].foldl (fun st d => addDestination d st))
        { items := [none], current := 0 }) :=
  ⟨by decide,
    C1_destination_box.1 { items := [none], current := 0 } ["a", "b", "a"] (by decide)⟩

/-- C2: Start resets the counters to (n, 0, 0) and any run of at most n
JobComplete notifications keeps all three counters non-negative with
sum n. -/
theorem C2_counters_conserved (n : Nat) (events : List Bool)
    (h : events.length ≤ n) :
    (startCounters n).queued_ = n ∧
      (startCounters n).finished_success_ = 0 ∧
      (startCounters n).finished_failed_ = 0 ∧
      0 ≤ (events.foldl (fun a b => jobCompleteCounters b a) (startCounters n)).queued_ ∧
      0 ≤ (events.foldl (fun a b => jobCompleteCounters b a)
            (startCounters n)).finished_success_ ∧
      0 ≤ (events.foldl (fun a b => jobCompleteCounters b a)
            (startCounters n)).finished_failed_ ∧
      (events.foldl (fun a b => jobCompleteCounters b a) (startCounters n)).queued_ +
          (events.foldl (fun a b => jobCompleteCounters b a)
            (startCounters n)).finished_success_ +
          (events.foldl (fun a b => jobCompleteCounters b a)
            (startCounters n)).finished_failed_ = n := by
  obtain ⟨h1, h2, h3, h4⟩ := foldJob_spec events (startCounters n)
  have hq : (startCounters (n : Int)).queued_ = (n : Int) := rfl
  have hs : (startCounters (n : Int)).finished_success_ = 0 := rfl
  have hf : (startCounters (n : Int)).finished_failed_ = 0 := rfl
  refine ⟨hq, hs, hf, ?_, ?_, ?_, ?_⟩ <;> omega

/-- C2 witness at n = 3 with two completions, one success and one
failure. -/
theorem C2_counters_conserved_witness :
    ([true, false] : List Bool).length ≤ 3 ∧
      ((startCounters 3).queued_ = 3 ∧
        (startCounters 3).finished_success_ = 0 ∧
        (startCounters 3).finished_failed_ = 0 ∧
        0 ≤ (([true, false] : List Bool).foldl (fun a b => jobCompleteCounters b a)
              (startCounters 3)).queued_ ∧
        0 ≤ (([true, false] : List Bool).foldl (fun a b => jobCompleteCounters b a)
              (startCounters 3)).finished_success_ ∧
        0 ≤ (([true, false] : List Bool).foldl (fun a b => jobCompleteCounters b a)
              (startCounters 3)).finished_failed_ ∧
        (([true, false] : List Bool).foldl (fun a b => jobCompleteCounters b a)
              (startCounters 3)).queued_ +
            (([true, false] : List Bool).foldl (fun a b => jobCompleteCounters b a)
              (startCounters 3)).finished_success_ +
            (([true, false] : List Bool).foldl (fun a b => jobCompleteCounters b a)
              (startCounters 3)).finished_failed_ = 3) :=
  ⟨by decide, C2_counters_conserved 3 [true, false] (by decide)⟩

/-- C3: Start on a non-empty list submits one AddJob per listed file,
each with the selected preset and the GetOutputFileName output, followed
by exactly one engine Start; the progress bar maximum becomes n * 100
and its value 0. -/
theorem C3_start_submits_jobs (isDir : String → Bool) (s : DialogState)
    (hw : s.working = false) (hf : s.files ≠ []) :
    (step isDir Event.startClicked s).engineTrace =
        s.engineTrace ++
          (s.files.map fun f =>
            EngineCmd.addJob
              { input := f, preset := currentPreset s
                output := getOutputFileName isDir s.destination f (currentPreset s) }) ++
          [EngineCmd.startCmd] ∧
      (step isDir Event.startClicked s).progressMax = (s.files.length : Int) * 100 ∧
      (step isDir Event.startClicked s).progressValue = 0 := by
  have hlen : ¬ s.files.length = 0 := by
    simpa [List.length_eq_zero] using hf
  simp [step, hw, startAction, hlen]

/-- C3 witness on a one-file dialog. -/
theorem C3_start_submits_jobs_witness :
    (sampleState.working = false ∧ sampleState.files ≠ []) ∧
      ((step oracleNone Event.startClicked sampleState).engineTrace =
          sampleState.engineTrace ++
            (sampleState.files.map fun f =>
              EngineCmd.addJob
                { input := f, preset := currentPreset sampleState
                  output := getOutputFileName oracleNone sampleState.destination f
                    (currentPreset sampleState) }) ++
            [EngineCmd.startCmd] ∧
        (step oracleNone Event.startClicked sampleState).progressMax =
          (sampleState.files.length : Int) * 100 ∧
        (step oracleNone Event.startClicked sampleState).progressValue = 0) :=
  ⟨⟨rfl, by decide⟩, C3_start_submits_jobs oracleNone sampleState rfl (by decide)⟩

/-- C4: each JobComplete bumps the matching finished counter, decrements
queued_, refreshes the status text and the progress bar, and touches
neither the engine trace nor the file list nor the working state: no
retry, resubmission or reclassification happens. -/
theorem C4_jobComplete_tally (isDir : String → Bool) (s : DialogState)
    (success : Bool) (snap : List ℚ) :
    (step isDir (Event.jobComplete success snap) s).counters.finished_success_ =
        s.counters.finished_success_ + (if success then 1 else 0) ∧
      (step isDir (Event.jobComplete success snap) s).counters.finished_failed_ =
        s.counters.finished_failed_ + (if success then 0 else 1) ∧
      (step isDir (Event.jobComplete success snap) s).counters.queued_ =
        s.counters.queued_ - 1 ∧
      (step isDir (Event.jobComplete success snap) s).statusText =
        renderStatusText (step isDir (Event.jobComplete success snap) s).counters ∧
      (step isDir (Event.jobComplete success snap) s).progressValue =
        updateProgress (step isDir (Event.jobComplete success snap) s).counters snap ∧
      (step isDir (Event.jobComplete success snap) s).engineTrace = s.engineTrace ∧
      (step isDir (Event.jobComplete success snap) s).files = s.files ∧
      (step isDir (Event.jobComplete success snap) s).working = s.working := by
  cases success <;> simp [step, jobCompleteAction, jobCompleteCounters]

/-- Claim C5 as stated, formalised: while working, the progress bar
value changes only on a tick of the polling timer. -/
def progressPolledOnlyOnTimer (isDir : String → Bool) : Prop :=
  ∀ (s : DialogState) (e : Event), s.working = true →
    (step isDir e s).progressValue ≠ s.progressValue →
    ∃ snap, e = Event.timerTick snap

/-- C5 counterexample: on a freshly started two-file run, the first
JobComplete notification moves the progress bar from 0 to 100 without
any timer tick, because JobComplete itself calls UpdateProgress. -/
theorem C5_counterexample : ¬ progressPolledOnlyOnTimer oracleNone := by
  intro h
  obtain ⟨snap, hsnap⟩ :=
    h (step oracleNone Event.startClicked
        (step oracleNone (Event.addFiles ["x.mp3", "y.mp3"])
          (initDialog "" [presetVorbis] [])))
      (Event.jobComplete true []) (by decide) (by decide)
  cases hsnap

/-- C5 (amended): while working, the progress bar is recomputed from
engine-reported progress on the 500 ms polling-timer tick and
additionally on every JobComplete notification, and through no other
path; the timer starts at kProgressInterval when working begins (a
successful Start) and stops when working ends (Cancel or
AllJobsComplete). -/
theorem C5_progress_paths (isDir : String → Bool) :
    (∀ (s : DialogState) (e : Event), s.working = true →
        (step isDir e s).progressValue ≠ s.progressValue →
        (∃ snap, e = Event.timerTick snap) ∨
          (∃ b snap, e = Event.jobComplete b snap)) ∧
      (∀ s : DialogState, s.working = false → s.files ≠ [] →
        (step isDir Event.startClicked s).timerOn = true ∧
          (step isDir Event.startClicked s).timerInterval = kProgressInterval ∧
          (step isDir Event.startClicked s).working = true) ∧
      (∀ s : DialogState, s.working = true →
        (step isDir Event.cancelClicked s).timerOn = false ∧
          (step isDir Event.cancelClicked s).working = false ∧
          (step isDir Event.allJobsComplete s).timerOn = false ∧
          (step isDir Event.allJobsComplete s).working = false) := by
  refine ⟨?_, ?_, ?_⟩
  · intro s e hw hne
    cases e with
    | startClicked => simp [step, hw] at hne
    | addFiles fns => simp [step, hw] at hne
    | folderImport path found => simp [step, hw] at hne
    | addDest dir => simp [step, hw] at hne
    | cancelClicked => simp [step, hw, cancelAction, setWorking] at hne
    | jobComplete b snap => exact Or.inr ⟨b, snap, rfl⟩
    | timerTick snap => exact Or.inl ⟨snap, rfl⟩
    | allJobsComplete => simp [step, setWorking] at hne
    | logLine date msg => simp [step] at hne
  · intro s hw hf
    have hlen : ¬ s.files.length = 0 := by
      simpa [List.length_eq_zero] using hf
    simp [step, hw, startAction, hlen, setWorking]
  · intro s hw
    simp [step, hw, cancelAction, setWorking]

/-- C5 witness: starting a one-file dialog turns the 500 ms timer on,
and cancelling turns it off again. -/
theorem C5_progress_paths_witness :
    (sampleState.working = false ∧ sampleState.files ≠ []) ∧
      ((step oracleNone Event.startClicked sampleState).timerOn = true ∧
        (step oracleNone Event.startClicked sampleState).timerInterval =
          kProgressInterval ∧
        (step oracleNone Event.startClicked sampleState).working = true) :=
  ⟨⟨rfl, by decide⟩, (C5_progress_paths oracleNone).2.1 sampleState rfl (by decide)⟩

/-- C6: a completed Add persists the cached add directory (the first
selected file name) as last_add_dir, a completed Import persists the
chosen directory as last_import_dir, and a non-empty Start persists the
selected preset codec as last_output_format — each write happening on
the action itself. -/
theorem C6_settings_writes (isDir : String → Bool) :
    (∀ (s : DialogState) (fns : List String), s.working = false → fns ≠ [] →
        (step isDir (Event.addFiles fns) s).last_add_dir_ = fns.headD "" ∧
          List.lookup "last_add_dir" (step isDir (Event.addFiles fns) s).settings =
            some (fns.headD "")) ∧
      (∀ (s : DialogState) (path : String) (found : List String),
        s.working = false → path ≠ "" →
        (step isDir (Event.folderImport path found) s).last_import_dir_ = path ∧
          List.lookup "last_import_dir"
              (step isDir (Event.folderImport path found) s).settings = some path) ∧
      (∀ s : DialogState, s.working = false → s.files ≠ [] →
        List.lookup "last_output_format"
            (step isDir Event.startClicked s).settings =
          some (currentPreset s).codec_mimetype_) := by
  refine ⟨?_, ?_, ?_⟩
  · intro s fns hw hf
    simp [step, hw, addAction, hf, setSetting, List.lookup]
  · intro s path found hw hp
    simp [step, hw, importAction, hp, setSetting, List.lookup]
  · intro s hw hf
    have hlen : ¬ s.files.length = 0 := by
      simpa [List.length_eq_zero] using hf
    simp [step, hw, startAction, hlen, setSetting, List.lookup]

/-- C6 witness: Start on the one-file dialog stores the Vorbis codec
identifier. -/
theorem C6_settings_writes_witness :
    (sampleState.working = false ∧ sampleState.files ≠ []) ∧
      List.lookup "last_output_format"
          (step oracleNone Event.startClicked sampleState).settings =
        some (currentPreset sampleState).codec_mimetype_ :=
  ⟨⟨rfl, by decide⟩,
    (C6_settings_writes oracleNone).2.2 sampleState rfl (by decide)⟩

/-- C7: the constructor fills the format combo with the presets sorted
by name, and the current index lands on the first item whose codec
matches the persisted last_output_format (default audio/x-vorbis), or
stays on the first item when nothing matches. -/
theorem C7_format_combo (home : String) (presets : List TranscoderPreset)
    (stored : List (String × String)) :
    List.Sorted presetLE (initDialog home presets stored).formatItems ∧
      (initDialog home presets stored).formatItems.Perm presets ∧
      (((initDialog home presets stored).formatCurrent = 0 ∧
          ∀ p ∈ (initDialog home presets stored).formatItems,
            p.codec_mimetype_ ≠
              (List.lookup "last_output_format" stored).getD "audio/x-vorbis") ∨
        (((initDialog home presets stored).formatItems.getD
              (initDialog home presets stored).formatCurrent
              defaultPreset).codec_mimetype_ =
            (List.lookup "last_output_format" stored).getD "audio/x-vorbis" ∧
          ∀ j < (initDialog home presets stored).formatCurrent,
            ((initDialog home presets stored).formatItems.getD j
                defaultPreset).codec_mimetype_ ≠
              (List.lookup "last_output_format" stored).getD "audio/x-vorbis")) := by
  have hitems : (initDialog home presets stored).formatItems =
      List.insertionSort presetLE presets := rfl
  have hcur : (initDialog home presets stored).formatCurrent =
      (selectIndex ((List.lookup "last_output_format" stored).getD "audio/x-vorbis")
        (List.insertionSort presetLE presets)).getD 0 := rfl
  refine ⟨hitems ▸ List.sorted_insertionSort presetLE presets,
    hitems ▸ List.perm_insertionSort presetLE presets, ?_⟩
  rw [hitems, hcur]
  cases hsel : selectIndex
      ((List.lookup "last_output_format" stored).getD "audio/x-vorbis")
      (List.insertionSort presetLE presets) with
  | none =>
    left
    exact ⟨rfl, selectIndex_eq_none hsel⟩
  | some i =>
    right
    simpa using selectIndex_eq_some hsel

/-- C8: clicking Start with an empty file list changes nothing at all:
no job, no engine call, no working state, no counter, progress or
settings change. -/
theorem C8_empty_start_noop (isDir : String → Bool) (s : DialogState)
    (h : s.files = []) : step isDir Event.startClicked s = s := by
  cases hw : s.working <;> simp [step, hw, startAction, h]

/-- C8 witness on a freshly constructed dialog. -/
theorem C8_empty_start_noop_witness :
    (initDialog "" [] []).files = [] ∧
      step oracleNone Event.startClicked (initDialog "" [] []) = initDialog "" [] [] :=
  ⟨rfl, C8_empty_start_noop oracleNone (initDialog "" [] []) rfl⟩

/-- C9: the UpdateProgress value is 100 per finished job plus a [0, 99]
clamped share per in-flight job; with consistent counters summing to n
and at most queued_ in-flight jobs, the value never exceeds the bar
maximum n * 100 and reaches it only once every job has completed. -/
theorem C9_progress_bound (c : Counters) (n : Int) (jobs : List ℚ)
    (hq : 0 ≤ c.queued_) (hs : 0 ≤ c.finished_success_)
    (hf : 0 ≤ c.finished_failed_)
    (hsum : c.finished_success_ + c.finished_failed_ + c.queued_ = n)
    (hjobs : (jobs.length : Int) ≤ c.queued_) :
    (∀ v ∈ jobs, 0 ≤ qBound 0 (cppIntOfRat (v * 100)) 99 ∧
        qBound 0 (cppIntOfRat (v * 100)) 99 ≤ 99) ∧
      updateProgress c jobs ≤ n * 100 ∧
      (updateProgress c jobs = n * 100 →
        c.queued_ = 0 ∧ c.finished_success_ + c.finished_failed_ = n) := by
  obtain ⟨h0, h99⟩ := clampSum_bounds jobs
  have hlen : (99 : Int) * jobs.length ≤ 99 * c.queued_ := by
    have := hjobs
    nlinarith
  refine ⟨fun v _ => ⟨qBound_nonneg _, qBound_le _⟩, ?_, ?_⟩
  · unfold updateProgress
    linarith
  · intro heq
    unfold updateProgress at heq
    constructor <;> linarith

/-- C9 witness: one finished success, one finished failure, two still
queued, one in-flight job at 50 percent against a four-job run. -/
theorem C9_progress_bound_witness :
    (0 ≤ (Counters.mk 2 1 1).queued_ ∧
        0 ≤ (Counters.mk 2 1 1).finished_success_ ∧
        0 ≤ (Counters.mk 2 1 1).finished_failed_ ∧
        (Counters.mk 2 1 1).finished_success_ +
            (Counters.mk 2 1 1).finished_failed_ + (Counters.mk 2 1 1).queued_ =
          (4 : Int) ∧
        (([(1 : ℚ) / 2].length : Int) ≤ (Counters.mk 2 1 1).queued_)) ∧
      ((∀ v ∈ [(1 : ℚ) / 2], 0 ≤ qBound 0 (cppIntOfRat (v * 100)) 99 ∧
          qBound 0 (cppIntOfRat (v * 100)) 99 ≤ 99) ∧
        updateProgress (Counters.mk 2 1 1) [(1 : ℚ) / 2] ≤ 4 * 100 ∧
        (updateProgress (Counters.mk 2 1 1) [(1 : ℚ) / 2] = 4 * 100 →
          (Counters.mk 2 1 1).queued_ = 0 ∧
            (Counters.mk 2 1 1).finished_success_ +
                (Counters.mk 2 1 1).finished_failed_ = 4)) :=
  ⟨⟨by decide, by decide, by decide, by decide, by decide⟩,
    C9_progress_bound (Counters.mk 2 1 1) 4 [(1 : ℚ) / 2]
      (by decide) (by decide) (by decide) (by decide) (by decide)⟩

/-- Modelled from the spec claim C10: the folder part is the selected
destination folder when that item names an existing directory, else the
path of the input file; joined with a slash, the complete base name, a
dot and the preset extension. -/
def specOutputFileName (isDir : String → Bool) (box : DestBox)
    (input : String) (preset : TranscoderPreset) : String :=
  (match box.items.getD box.current none with
    | some d => if isDir d then d else qtPath input
    | none => qtPath input) ++
    "/" ++ completeBaseName input ++ "." ++ preset.extension_

/-- C10: GetOutputFileName agrees with the claimed formula on every
filesystem oracle on which the empty path (the null item data of the
static first destination item) is not a directory, as holds for
QFileInfo. -/
theorem C10_output_filename (isDir : String → Bool) (box : DestBox)
    (input : String) (preset : TranscoderPreset)
    (hempty : isDir "" = false) :
    getOutputFileName isDir box input preset =
      specOutputFileName isDir box input preset := by
  unfold getOutputFileName specOutputFileName
  cases h : box.items.getD box.current none with
  | none => simp [h, hempty]
  | some d => simp [h]

/-- C10 witness: a destination pointing at the existing directory
/music, with a dotted input file name. -/
theorem C10_output_filename_witness :
    oracleMusic "" = false ∧
      getOutputFileName oracleMusic
          { items := [none, some "/music"], current := 1 }
          "/tmp/a.tar.mp3" presetVorbis =
        specOutputFileName oracleMusic
          { items := [none, some "/music"], current := 1 }
          "/tmp/a.tar.mp3" presetVorbis :=
  ⟨rfl,
    C10_output_filename oracleMusic
      { items := [none, some "/music"], current := 1 }
      "/tmp/a.tar.mp3" presetVorbis rfl⟩

end Transcode
